import Mathlib

/-!
Shallow embedding of `src/file_sentinel.py` (FileSentinel): a polling
file monitor.  The filesystem is modelled as a tree of named entries;
timestamps are whole seconds (`Int`).  Each Lean definition mirrors one
Python function of the source; external library calls (`Path.rglob`,
`Path.is_file`, `os.stat`, `time.ctime`, `json.dump`) are modelled by
their documented semantics.
-/

set_option maxRecDepth 8192

namespace FileSentinel

/-- Resolved target of a symbolic link: what following the link finally
reaches.  `stat` on a link to a regular file returns the target's
metadata, so the target's `st_ctime` is carried here; `none` in
`FSEntry.symlink` marks a broken link. -/
inductive ResolvedTarget where
  | tfile (ctime : Int)
  | tdir
  | tspecial
deriving DecidableEq, Repr

/-- One filesystem entry as observed by the scan in `get_new_files`
(src/file_sentinel.py lines 88-99): a regular file, a directory with its
named children, a symbolic link carrying its resolved target, or a
special file.  `ctime` is the entry's `st_ctime` in whole seconds. -/
inductive FSEntry where
  | file (ctime : Int)
  | dir (children : List (String × FSEntry)) (ctime : Int)
  | symlink (target : Option ResolvedTarget)
  | special (ctime : Int)
deriving Repr

/-- A directory listing: the named entries of one directory. -/
abbrev Dir := List (String × FSEntry)

/-- `Path.is_file()`: true for a regular file or a symbolic link whose
resolved target is a regular file (Python follows links here). -/
def isFile : FSEntry → Bool
  | FSEntry.file _ => true
  | FSEntry.symlink (some (ResolvedTarget.tfile _)) => true
  | _ => false

/-- Whether an entry is itself a symbolic link (any target). -/
def isSymlink : FSEntry → Bool
  | FSEntry.symlink _ => true
  | _ => false

/-- `entry.stat().st_ctime`: `stat` follows symbolic links.  In the
source this is only evaluated under the `is_file()` guard, so only the
`file` and link-to-file branches are ever reached; the remaining
branches return the entry's own recorded time (or 0 for links whose
target carries none). -/
def statCtime : FSEntry → Int
  | FSEntry.file c => c
  | FSEntry.dir _ c => c
  | FSEntry.special c => c
  | FSEntry.symlink (some (ResolvedTarget.tfile c)) => c
  | FSEntry.symlink _ => 0

/-- `Path(root).rglob("*")` over a directory listing rooted at path
`pre`: yields every entry beneath `pre` paired with its full path,
descending into real subdirectories; `rglob` does not follow symbolic
links into directories. -/
def rglobChildren (pre : String) : Dir → List (String × FSEntry)
  | [] => []
  | (name, FSEntry.dir cs ct) :: rest =>
      (pre ++ "/" ++ name, FSEntry.dir cs ct) ::
        (rglobChildren (pre ++ "/" ++ name) cs ++ rglobChildren pre rest)
  | (name, e) :: rest => (pre ++ "/" ++ name, e) :: rglobChildren pre rest
termination_by l => sizeOf l
decreasing_by all_goals (simp_wf; try omega)

/-- Month abbreviations used by `time.ctime`. -/
def monthNames : List String :=
  ["Jan", "Feb", "Mar", "Apr", "May", "Jun",
   "Jul", "Aug", "Sep", "Oct", "Nov", "Dec"]

/-- Weekday abbreviations used by `time.ctime` (0 = Sunday). -/
def dayNames : List String :=
  ["Sun", "Mon", "Tue", "Wed", "Thu", "Fri", "Sat"]

/-- Gregorian civil date (year, month, day) from days since 1970-01-01,
by the standard era/day-of-era decomposition. -/
def civilFromDays (z0 : Int) : Int × Int × Int :=
  let z := z0 + 719468
  let era := Int.fdiv z 146097
  let doe := z - era * 146097
  let yoe := (doe - doe / 1460 + doe / 36524 - doe / 146096) / 365
  let y := yoe + era * 400
  let doy := doe - (365 * yoe + yoe / 4 - yoe / 100)
  let mp := (5 * doy + 2) / 153
  let d := doy - (153 * mp + 2) / 5 + 1
  let m := mp + (if mp < 10 then 3 else -9)
  (y + (if m ≤ 2 then 1 else 0), m, d)

/-- Zero-padded two-digit rendering of an hour/minute/second field. -/
def pad2 (n : Int) : String :=
  if n < 10 then "0" ++ toString n else toString n

/-- `time.ctime(t)` for whole-second timestamps, the classic
`Www Mmm dd hh:mm:ss yyyy` rendering with a space-padded day of month.
The process timezone is modelled as UTC. -/
def timeCtime (t : Int) : String :=
  let days := Int.fdiv t 86400
  let secs := t - days * 86400
  let hh := secs / 3600
  let mm := (secs % 3600) / 60
  let ss := secs % 60
  let wd := Int.toNat (Int.emod (days + 4) 7)
  let ymd := civilFromDays days
  (dayNames.getD wd "") ++ " " ++
    (monthNames.getD (Int.toNat (ymd.2.1 - 1)) "") ++ " " ++
    (if ymd.2.2 < 10 then " " else "") ++ toString ymd.2.2 ++ " " ++
    pad2 hh ++ ":" ++ pad2 mm ++ ":" ++ pad2 ss ++ " " ++ toString ymd.1

/-- `get_new_files` (src/file_sentinel.py lines 88-99): walk `root_dir`
recursively; for every yielded entry satisfying `is_file()` whose
`st_ctime` strictly exceeds `last_check_time`, record
path ↦ `time.ctime` rendering.  The Python dict is modelled as an
association list in insertion order: the paths yielded by a walk of a
real filesystem tree are pairwise distinct, so appending a fresh pair
models `new_files[str(file)] = ...`. -/
def get_new_files (root_dir : String) (tree : Dir) (last_check_time : Int) :
    List (String × String) :=
  (rglobChildren root_dir tree).foldl
    (fun new_files file =>
      if isFile file.2 = true then
        if statCtime file.2 > last_check_time then
          new_files ++ [(file.1, timeCtime (statCtime file.2))]
        else new_files
      else new_files)
    []

/-- Character-level JSON string escaping (backslash, quote, newline), as
`json.dumps` applies to keys and values. -/
def jsonEscapeChars : List Char → List Char
  | [] => []
  | ch :: rest =>
      (if ch = '\\' then ['\\', '\\']
       else if ch = '"' then ['\\', '"']
       else if ch = '\n' then ['\\', 'n']
       else [ch]) ++ jsonEscapeChars rest

/-- JSON escaping lifted to strings. -/
def jsonEscape (s : String) : String :=
  String.mk (jsonEscapeChars s.data)

/-- A JSON string literal: escaped content between double quotes. -/
def jsonQuote (s : String) : String :=
  "\"" ++ jsonEscape s ++ "\""

/-- Concatenate strings with a separator between consecutive elements. -/
def joinSep (sep : String) : List String → String
  | [] => ""
  | x :: rest =>
      match rest with
      | [] => x
      | _ => x ++ sep ++ joinSep sep rest

/-- `json.dumps(d, indent=4)` for a dict of strings: keys in insertion
order, each entry on its own line indented by four spaces. -/
def jsonDumpsDict (kvs : List (String × String)) : String :=
  match kvs with
  | [] => "\x7b\x7d"
  | _ =>
      "\x7b\n" ++
        joinSep ",\n"
          (kvs.map (fun kv => "    " ++ jsonQuote kv.1 ++ ": " ++ jsonQuote kv.2)) ++
      "\n\x7d"

/-- Observable actions of one pass of the `monitor` loop
(src/file_sentinel.py lines 102-117): the blocking `time.sleep`, a
`logging.info` line, and a `messenger.send_log_file_with_message` call. -/
inductive Event where
  | sleep (seconds : Int)
  | logInfo (message : String)
  | sendMessage (message : String)
deriving DecidableEq, Repr

/-- Record of one iteration of the `monitor` loop: the cutoff
(`last_check_time`) in effect when the scan ran, the scan result, the
cutoff stored at the end of the iteration, and the emitted events in
order. -/
structure IterResult where
  cutoff_used : Int
  new_files : List (String × String)
  cutoff_after : Int
  events : List Event
deriving Repr

/-- The Scanning/Deciding part of one `monitor` iteration
(src/file_sentinel.py lines 107-117): scan, then either log the new-file
mapping, or send the notification and log that nothing was found;
finally `last_check_time = time.time()` stores `now` in either branch. -/
def actingStep (root_dir : String) (time_interval : Int) (tree : Dir)
    (now : Int) (last_check_time : Int) : IterResult :=
  let new_files := get_new_files root_dir tree last_check_time
  let events :=
    if new_files.length > 0 then
      [Event.logInfo
        ("new files check, following files were created: " ++ jsonDumpsDict new_files)]
    else
      [Event.sendMessage
        ("No new files were created in the last " ++ toString time_interval ++ " minutes"),
       Event.logInfo "new files check, no new files were created"]
  { cutoff_used := last_check_time
    new_files := new_files
    cutoff_after := now
    events := events }

/-- One full iteration of the `monitor` loop body: the blocking sleep of
`time_interval * 60` seconds followed by the Scanning/Deciding step.
`tree` is the filesystem snapshot the scan observes and `now` the value
`time.time()` returns at the end of the iteration. -/
def monitorIter (root_dir : String) (time_interval : Int)
    (last_check_time : Int) (tree : Dir) (now : Int) : IterResult :=
  let r := actingStep root_dir time_interval tree now last_check_time
  { r with events := Event.sleep (time_interval * 60) :: r.events }

/-- A finite prefix of the infinite `monitor` loop: starting from
`last_check_time` (initialised to `time.time()` at loop start), run one
iteration per `(snapshot, clock)` pair. -/
def monitorRun (root_dir : String) (time_interval : Int) :
    Int → List (Dir × Int) → List IterResult
  | _, [] => []
  | last_check_time, (tree, now) :: rest =>
      let r := monitorIter root_dir time_interval last_check_time tree now
      r :: monitorRun root_dir time_interval r.cutoff_after rest

/-- The two control states of each `monitor` iteration: blocked in
`time.sleep`, or scanning and deciding. -/
inductive Phase where
  | sleeping
  | acting
deriving DecidableEq, Repr

/-- Control state of the `monitor` loop: the current phase together with
its only mutable variable, `last_check_time`. -/
structure MState where
  phase : Phase
  last_check_time : Int
deriving DecidableEq, Repr

/-- Small-step transition of the `monitor` loop.  The `Option` result is
the frame for a body that could return to its caller: a branch that
left the `while True` loop would produce `none`.  The source loop has no
`break` or `return`, so every branch produces `some` successor. -/
def mstep (root_dir : String) (time_interval : Int) (tree : Dir) (now : Int)
    (s : MState) : Option (MState × List Event) :=
  match s.phase with
  | Phase.sleeping =>
      some ({ s with phase := Phase.acting }, [Event.sleep (time_interval * 60)])
  | Phase.acting =>
      let r := actingStep root_dir time_interval tree now s.last_check_time
      some ({ phase := Phase.sleeping, last_check_time := r.cutoff_after }, r.events)

/-- Iterated `mstep` over a list of per-step environments; `none` as soon
as any step would leave the loop. -/
def mrun (root_dir : String) (time_interval : Int) :
    List (Dir × Int) → MState → Option (MState × List Event)
  | [], s => some (s, [])
  | (tree, now) :: rest, s =>
      match mstep root_dir time_interval tree now s with
      | none => none
      | some (s1, evs) =>
          match mrun root_dir time_interval rest s1 with
          | none => none
          | some (s2, evs2) => some (s2, evs ++ evs2)

/-- The Scanning/Deciding step with a fallible messenger.  When the scan
result is empty the source calls
`messenger.send_log_file_with_message(...)` before the
`last_check_time = time.time()` reassignment; if that call raises
(`sendSucceeds = false`), the exception propagates and the payload of
`Except.error` is the value `last_check_time` still holds at that
point — the reassignment on line 117 has not run. -/
def actingStepExc (root_dir : String) (time_interval : Int) (tree : Dir)
    (now : Int) (last_check_time : Int) (sendSucceeds : Bool) :
    Except Int (Int × List Event) :=
  let new_files := get_new_files root_dir tree last_check_time
  if new_files.length > 0 then
    Except.ok (now,
      [Event.logInfo
        ("new files check, following files were created: " ++ jsonDumpsDict new_files)])
  else if sendSucceeds then
    Except.ok (now,
      [Event.sendMessage
        ("No new files were created in the last " ++ toString time_interval ++ " minutes"),
       Event.logInfo "new files check, no new files were created"])
  else Except.error last_check_time

/-- The configuration record held in `config.json`
(src/file_sentinel.py lines 60-67), in the field order of the source's
dict literal. -/
structure ConfigJson where
  directory_of_interest : String
  check_time_interval : Int
  log_file_location : String
  email_receiver : String
  email_sender : String
  email_password : String
deriving DecidableEq, Repr

/-- Content of a file offered to `json.load`: either text parsing to a
configuration record, or text whose parse raises `JSONDecodeError`. -/
inductive CfgFile where
  | valid (c : ConfigJson)
  | malformed
deriving DecidableEq, Repr

/-- The filesystem as seen by the configuration code: a partial map from
path to file content (`none` means opening raises `FileNotFoundError`). -/
abbrev CFS := String → Option CfgFile

/-- The process environment: a partial map from variable name to value. -/
abbrev Env := String → Option String

/-- `os.getenv(name, default)`. -/
def getenv (env : Env) (name default : String) : String :=
  (env name).getD default

/-- The dict literal built inside `create_default_config`
(src/file_sentinel.py lines 60-67). -/
def defaultConfig (cwd : String) (env : Env) : ConfigJson where
  directory_of_interest := cwd
  check_time_interval := 15
  log_file_location := cwd ++ "/monitor.txt"
  email_receiver := getenv env "LOGGER_EMAIL_RECEIVER" "reciever@gmail.com"
  email_sender := getenv env "LOGGER_EMAIL_SENDER" "sender@gmail.com"
  email_password := getenv env "LOGGER_EMAIL_PASSWORD" "default_password"

/-- The (key, rendered value) items of a configuration record in the
insertion order of the source's dict literal; `json.dump` preserves this
order. -/
def configItems (c : ConfigJson) : List (String × String) :=
  [("directory_of_interest", jsonQuote c.directory_of_interest),
   ("check_time_interval", toString c.check_time_interval),
   ("log_file_location", jsonQuote c.log_file_location),
   ("email_receiver", jsonQuote c.email_receiver),
   ("email_sender", jsonQuote c.email_sender),
   ("email_password", jsonQuote c.email_password)]

/-- The exact text `json.dump(config, f, indent=4)` writes for a
configuration record: keys in insertion order, one per line, indented by
four spaces. -/
def dumpConfig (c : ConfigJson) : String :=
  "\x7b\n" ++
    joinSep ",\n"
      ((configItems c).map (fun kv => "    " ++ jsonQuote kv.1 ++ ": " ++ kv.2)) ++
  "\n\x7d"

/-- The Python exceptions the configuration code can surface. -/
inductive PyError where
  | fileNotFound
  | jsonDecodeError
deriving DecidableEq, Repr

/-- `create_default_config` (src/file_sentinel.py lines 57-71): build the
default record from the current working directory and the environment,
write it to `config.json` in the current working directory, and return
that path together with the updated filesystem. -/
def create_default_config (fs : CFS) (cwd : String) (env : Env) : String × CFS :=
  let config_path := cwd ++ "/config.json"
  (config_path,
   fun p => if p = config_path then some (CfgFile.valid (defaultConfig cwd env)) else fs p)

/-- `read_config` (src/file_sentinel.py lines 74-85): open and parse
`path_to_config`.  Only `FileNotFoundError` is caught; in that case the
default configuration is created and the file `create_default_config`
returned is opened and parsed, inside the handler, with no further
`try`.  Any `JSONDecodeError` propagates.  The result pairs the returned
configuration (or escaping exception) with the final filesystem. -/
def read_config (fs : CFS) (cwd : String) (env : Env) (path_to_config : String) :
    Except PyError ConfigJson × CFS :=
  match fs path_to_config with
  | some (CfgFile.valid c) => (Except.ok c, fs)
  | some CfgFile.malformed => (Except.error PyError.jsonDecodeError, fs)
  | none =>
      let pr := create_default_config fs cwd env
      match pr.2 pr.1 with
      | some (CfgFile.valid c) => (Except.ok c, pr.2)
      | some CfgFile.malformed => (Except.error PyError.jsonDecodeError, pr.2)
      | none => (Except.error PyError.fileNotFound, pr.2)

/-- Every entry of a listing appears in the walk of that listing, at its
joined path. -/
theorem mem_rglobChildren_of_mem_children (pre : String) (l : Dir) :
    ∀ n x, (n, x) ∈ l → (pre ++ "/" ++ n, x) ∈ rglobChildren pre l := by
  induction pre, l using rglobChildren.induct with
  | case1 pre => simp
  | case2 pre name cs0 ct0 rest ih1 ih2 =>
    intro n x h
    rcases List.mem_cons.mp h with heq | htl
    · obtain ⟨h1, h2⟩ := Prod.ext_iff.mp heq
      simp only at h1 h2
      subst h1; subst h2
      simp [rglobChildren]
    · simp only [rglobChildren, List.mem_cons, List.mem_append]
      exact Or.inr (Or.inr (ih2 n x htl))
  | case3 pre name e0 rest hne ih =>
    intro n x h
    rcases List.mem_cons.mp h with heq | htl
    · obtain ⟨h1, h2⟩ := Prod.ext_iff.mp heq
      simp only at h1 h2
      subst h1; subst h2
      cases x with
      | dir cs ct => exact (hne cs ct rfl).elim
      | file c => simp [rglobChildren]
      | symlink t => simp [rglobChildren]
      | special c => simp [rglobChildren]
    · cases e0 with
      | dir cs ct => exact (hne cs ct rfl).elim
      | file c =>
          simp only [rglobChildren, List.mem_cons]
          exact Or.inr (ih n x htl)
      | symlink t =>
          simp only [rglobChildren, List.mem_cons]
          exact Or.inr (ih n x htl)
      | special c =>
          simp only [rglobChildren, List.mem_cons]
          exact Or.inr (ih n x htl)

/-- The walk descends into subdirectories: the children of any directory
it yields are yielded too. -/
theorem rglob_dir_children (pre : String) (l : Dir) :
    ∀ dp cs ct, (dp, FSEntry.dir cs ct) ∈ rglobChildren pre l →
      ∀ n e, (n, e) ∈ cs → (dp ++ "/" ++ n, e) ∈ rglobChildren pre l := by
  induction pre, l using rglobChildren.induct with
  | case1 pre => intro dp cs ct h; simp [rglobChildren] at h
  | case2 pre name cs0 ct0 rest ih1 ih2 =>
    intro dp cs ct hmem n e hc
    simp only [rglobChildren, List.mem_cons, List.mem_append] at hmem ⊢
    rcases hmem with heq | hin | hrest
    · obtain ⟨h1, h2⟩ := Prod.ext_iff.mp heq
      simp only at h1 h2
      obtain ⟨hcs, hct⟩ := FSEntry.dir.injEq .. ▸ h2
      subst h1; subst hcs
      exact Or.inr (Or.inl (mem_rglobChildren_of_mem_children _ cs n e hc))
    · exact Or.inr (Or.inl (ih1 dp cs ct hin n e hc))
    · exact Or.inr (Or.inr (ih2 dp cs ct hrest n e hc))
  | case3 pre name e0 rest hne ih =>
    intro dp cs ct hmem n e hc
    cases e0 with
    | dir cs2 ct2 => exact (hne cs2 ct2 rfl).elim
    | file c =>
        simp only [rglobChildren, List.mem_cons] at hmem ⊢
        rcases hmem with heq | htl
        · obtain ⟨h1, h2⟩ := Prod.ext_iff.mp heq
          simp at h2
        · exact Or.inr (ih dp cs ct htl n e hc)
    | symlink t =>
        simp only [rglobChildren, List.mem_cons] at hmem ⊢
        rcases hmem with heq | htl
        · obtain ⟨h1, h2⟩ := Prod.ext_iff.mp heq
          simp at h2
        · exact Or.inr (ih dp cs ct htl n e hc)
    | special c =>
        simp only [rglobChildren, List.mem_cons] at hmem ⊢
        rcases hmem with heq | htl
        · obtain ⟨h1, h2⟩ := Prod.ext_iff.mp heq
          simp at h2
        · exact Or.inr (ih dp cs ct htl n e hc)

/-- The accumulating fold of `get_new_files` is a `filterMap` over the
walk. -/
theorem get_new_files_foldl_eq (t : Int) (l : List (String × FSEntry))
    (acc : List (String × String)) :
    l.foldl
      (fun new_files file =>
        if isFile file.2 = true then
          if statCtime file.2 > t then
            new_files ++ [(file.1, timeCtime (statCtime file.2))]
          else new_files
        else new_files) acc
    = acc ++ l.filterMap
        (fun pe => if isFile pe.2 = true ∧ statCtime pe.2 > t then
            some (pe.1, timeCtime (statCtime pe.2)) else none) := by
  induction l generalizing acc with
  | nil => simp
  | cons hd tl ih =>
    simp only [List.foldl_cons, List.filterMap_cons]
    by_cases h1 : isFile hd.2 = true
    · by_cases h2 : statCtime hd.2 > t
      · rw [if_pos h1, if_pos h2, ih, if_pos ⟨h1, h2⟩]
        simp
      · rw [if_pos h1, if_neg h2, ih, if_neg (by tauto)]
    · rw [if_neg h1, ih, if_neg (by tauto)]

/-- Characterisation of the scan result: a pair is reported exactly when
the walk yields an entry at that path that satisfies `is_file()` and
whose `st_ctime` strictly exceeds the cutoff, and the reported value is
its `time.ctime` rendering. -/
theorem mem_get_new_files (root_dir : String) (tree : Dir) (t : Int) (p v : String) :
    (p, v) ∈ get_new_files root_dir tree t ↔
      ∃ e, (p, e) ∈ rglobChildren root_dir tree ∧ isFile e = true ∧
        statCtime e > t ∧ v = timeCtime (statCtime e) := by
  unfold get_new_files
  rw [get_new_files_foldl_eq]
  simp only [List.nil_append, List.mem_filterMap]
  constructor
  · rintro ⟨⟨p', e⟩, hmem, hf⟩
    split at hf
    · next h =>
        obtain ⟨h1, h2⟩ := h
        obtain ⟨hp, hv⟩ := Prod.ext_iff.mp (Option.some_inj.mp hf)
        simp only at hp hv
        subst hp
        exact ⟨e, hmem, h1, h2, hv.symm⟩
    · exact absurd hf (by simp)
  · rintro ⟨e, hm, h1, h2, rfl⟩
    exact ⟨(p, e), hm, by rw [if_pos ⟨h1, h2⟩]⟩

/-- In an association list whose keys are pairwise distinct, a key
determines its value. -/
theorem nodup_keys_eq {α β : Type} {l : List (α × β)}
    (h : (l.map Prod.fst).Nodup) {p : α} {a b : β}
    (ha : (p, a) ∈ l) (hb : (p, b) ∈ l) : a = b := by
  induction l with
  | nil => simp at ha
  | cons hd tl ih =>
    simp only [List.map_cons, List.nodup_cons] at h
    rcases List.mem_cons.mp ha with ha' | ha' <;>
      rcases List.mem_cons.mp hb with hb' | hb'
    · rw [← ha'] at hb'
      exact (Prod.ext_iff.mp hb'.symm).2
    · exact absurd (List.mem_map_of_mem Prod.fst hb') (by
        obtain ⟨h1, _⟩ := Prod.ext_iff.mp ha'
        simp only at h1
        rw [← h1] at h
        exact h.1)
    · exact absurd (List.mem_map_of_mem Prod.fst ha') (by
        obtain ⟨h1, _⟩ := Prod.ext_iff.mp hb'
        simp only at h1
        rw [← h1] at h
        exact h.1)
    · exact ih h.2 ha' hb'

/-- C1, counterexample: the claim says the keys of the scan result are
exactly the regular files with timestamp above the cutoff.  On a tree
holding one symbolic link to a regular file created at time 5, with
cutoff 0, `get_new_files` reports the link's path even though the walk
yields no regular file there: `is_file()` follows symbolic links. -/
theorem c1_counterexample :
    ¬ (∀ p : String,
        (∃ v, (p, v) ∈ get_new_files "/r"
            [("link", FSEntry.symlink (some (ResolvedTarget.tfile 5)))] 0) ↔
        (∃ ct : Int, (p, FSEntry.file ct) ∈ rglobChildren "/r"
            [("link", FSEntry.symlink (some (ResolvedTarget.tfile 5)))] ∧ ct > 0)) := by
  intro h
  obtain ⟨ct, hm, _⟩ := (h ("/r" ++ "/" ++ "link")).mp
    ⟨timeCtime 5, by simp +decide [get_new_files, rglobChildren, isFile, statCtime]⟩
  simp [rglobChildren] at hm

/-- C1, amended: for every tree and cutoff (epoch included), the scan
result holds `(p, v)` exactly when the walk yields at `p` an entry
satisfying `is_file()` — a regular file or a symbolic link resolving to
one — whose `st_ctime` strictly exceeds the cutoff, with `v` its
`time.ctime` rendering; timestamps equal to or below the cutoff are
excluded, and an empty directory gives an empty mapping. -/
theorem c1_scan_characterization (root_dir : String) (tree : Dir) (c : Int) :
    (∀ p v, (p, v) ∈ get_new_files root_dir tree c ↔
        ∃ e, (p, e) ∈ rglobChildren root_dir tree ∧ isFile e = true ∧
          statCtime e > c ∧ v = timeCtime (statCtime e)) ∧
    get_new_files root_dir [] c = [] := by
  exact ⟨fun p v => mem_get_new_files root_dir tree c p v,
    by simp [get_new_files, rglobChildren]⟩

/-- C1, witness: on a one-file tree the characterisation reports the
file created at time 9 against cutoff 0. -/
theorem c1_scan_characterization_witness :
    ("/w" ++ "/" ++ "a.txt", timeCtime 9) ∈
      get_new_files "/w" [("a.txt", FSEntry.file 9)] 0 :=
  ((c1_scan_characterization "/w" [("a.txt", FSEntry.file 9)] 0).1
      ("/w" ++ "/" ++ "a.txt") (timeCtime 9)).mpr
    ⟨FSEntry.file 9, by simp [rglobChildren], rfl, by decide, rfl⟩

/-- C4, counterexample: the claim says symbolic links never appear as
entries of the result.  On a tree holding one symbolic link to a regular
file created at time 7, with cutoff 0, the link's path is reported:
`is_file()` follows symbolic links. -/
theorem c4_counterexample :
    ¬ (∀ p e, (p, e) ∈ rglobChildren "/d"
          [("s", FSEntry.symlink (some (ResolvedTarget.tfile 7)))] →
        isSymlink e = true →
        ∀ v, (p, v) ∉ get_new_files "/d"
          [("s", FSEntry.symlink (some (ResolvedTarget.tfile 7)))] 0) := by
  intro h
  exact h ("/d" ++ "/" ++ "s") (FSEntry.symlink (some (ResolvedTarget.tfile 7)))
    (by simp [rglobChildren]) rfl (timeCtime 7)
    (by simp +decide [get_new_files, rglobChildren, isFile, statCtime])

/-- C4, amended: on any snapshot whose walked paths are pairwise
distinct (every real directory tree), entries failing `is_file()` —
directories, special files, broken links and links to non-regular
targets — never appear in the result; the walk still descends into every
real subdirectory, and every regular file it yields whose timestamp
exceeds the cutoff is reported, at any depth.  Symbolic links resolving
to regular files are the exception the original claim misses: they do
appear. -/
theorem c4_only_isfile_entries (root_dir : String) (tree : Dir) (c : Int)
    (hnd : ((rglobChildren root_dir tree).map Prod.fst).Nodup) :
    (∀ p e, (p, e) ∈ rglobChildren root_dir tree → isFile e = false →
        ∀ v, (p, v) ∉ get_new_files root_dir tree c) ∧
    (∀ dp cs ct, (dp, FSEntry.dir cs ct) ∈ rglobChildren root_dir tree →
        ∀ n e, (n, e) ∈ cs → (dp ++ "/" ++ n, e) ∈ rglobChildren root_dir tree) ∧
    (∀ p ct, (p, FSEntry.file ct) ∈ rglobChildren root_dir tree → ct > c →
        (p, timeCtime ct) ∈ get_new_files root_dir tree c) := by
  refine ⟨?_, fun dp cs ct h n e hc => rglob_dir_children root_dir tree dp cs ct h n e hc, ?_⟩
  · intro p e hmem hnotfile v hv
    obtain ⟨e', hm', hf', _, _⟩ := (mem_get_new_files root_dir tree c p v).mp hv
    rw [nodup_keys_eq hnd hmem hm'] at hnotfile
    rw [hf'] at hnotfile
    exact absurd hnotfile (by simp)
  · intro p ct hmem hgt
    exact (mem_get_new_files root_dir tree c p (timeCtime ct)).mpr
      ⟨FSEntry.file ct, hmem, rfl, hgt, rfl⟩

/-- C4, witness: on a tree with a subdirectory holding one file, the
amended claim instantiates: the subdirectory's path is not reported, and
the nested file (created at 9, cutoff 0) is. -/
theorem c4_only_isfile_entries_witness :
    (("/w" ++ "/" ++ "sub", "x") ∉
      get_new_files "/w" [("sub", FSEntry.dir [("b", FSEntry.file 9)] 1)] 0) ∧
    (("/w" ++ "/" ++ "sub" ++ "/" ++ "b", timeCtime 9) ∈
      get_new_files "/w" [("sub", FSEntry.dir [("b", FSEntry.file 9)] 1)] 0) := by
  have h := c4_only_isfile_entries "/w" [("sub", FSEntry.dir [("b", FSEntry.file 9)] 1)] 0
    (by simp [rglobChildren])
  exact ⟨h.1 ("/w" ++ "/" ++ "sub") (FSEntry.dir [("b", FSEntry.file 9)] 1)
      (by simp [rglobChildren]) rfl "x",
    h.2.2 ("/w" ++ "/" ++ "sub" ++ "/" ++ "b") 9 (by simp [rglobChildren]) (by decide)⟩

/-- C2: in every iteration, the Notifier is invoked exactly when the
scan result is empty.  Non-empty result: one structured log entry with
the full mapping and no send.  Empty result: a send whose message says
no new files were created in the last `time_interval` minutes, followed
by a log entry that no new files were created. -/
theorem c2_notifier_iff_empty (root_dir : String) (time_interval : Int)
    (last_check_time : Int) (tree : Dir) (now : Int) :
    ((∃ m, Event.sendMessage m ∈
        (monitorIter root_dir time_interval last_check_time tree now).events) ↔
      (monitorIter root_dir time_interval last_check_time tree now).new_files = []) ∧
    ((monitorIter root_dir time_interval last_check_time tree now).new_files ≠ [] →
      (monitorIter root_dir time_interval last_check_time tree now).events =
        [Event.sleep (time_interval * 60),
         Event.logInfo ("new files check, following files were created: " ++
           jsonDumpsDict
             (monitorIter root_dir time_interval last_check_time tree now).new_files)]) ∧
    ((monitorIter root_dir time_interval last_check_time tree now).new_files = [] →
      (monitorIter root_dir time_interval last_check_time tree now).events =
        [Event.sleep (time_interval * 60),
         Event.sendMessage
           ("No new files were created in the last " ++ toString time_interval ++ " minutes"),
         Event.logInfo "new files check, no new files were created"]) := by
  by_cases hnil : get_new_files root_dir tree last_check_time = []
  · refine ⟨?_, ?_, ?_⟩ <;> simp [monitorIter, actingStep, hnil]
  · have h : 0 < (get_new_files root_dir tree last_check_time).length :=
      List.length_pos.mpr hnil
    refine ⟨?_, ?_, ?_⟩ <;> simp [monitorIter, actingStep, hnil, h]

/-- C2, witness: on an empty snapshot the send and log happen; on a
snapshot with one fresh file only the log happens. -/
theorem c2_notifier_iff_empty_witness :
    ((monitorIter "/w" 15 0 [] 100).events =
      [Event.sleep (15 * 60),
       Event.sendMessage
         ("No new files were created in the last " ++ toString (15 : Int) ++ " minutes"),
       Event.logInfo "new files check, no new files were created"]) ∧
    ((monitorIter "/w" 15 0 [("a", FSEntry.file 50)] 100).events =
      [Event.sleep (15 * 60),
       Event.logInfo ("new files check, following files were created: " ++
         jsonDumpsDict (monitorIter "/w" 15 0 [("a", FSEntry.file 50)] 100).new_files)]) := by
  constructor
  · exact (c2_notifier_iff_empty "/w" 15 0 [] 100).2.2
      (by simp [monitorIter, actingStep, get_new_files, rglobChildren])
  · exact (c2_notifier_iff_empty "/w" 15 0 [("a", FSEntry.file 50)] 100).2.1
      (by simp +decide [monitorIter, actingStep, get_new_files, rglobChildren,
            isFile, statCtime])

/-- Structural facts about a finite run of the loop: one result per
step; each iteration scans with the cutoff it started with and stores
the step's clock value; the first iteration starts from the loop-start
time; consecutive iterations chain the cutoff; and the listed cutoffs
are the loop-start time followed by all but the last clock value. -/
theorem monitorRun_spec (root_dir : String) (time_interval : Int) :
    ∀ (steps : List (Dir × Int)) (c : Int),
      (monitorRun root_dir time_interval c steps).length = steps.length ∧
      (∀ pr ∈ (monitorRun root_dir time_interval c steps).zip steps,
        pr.1.cutoff_after = pr.2.2 ∧
        pr.1.new_files = get_new_files root_dir pr.2.1 pr.1.cutoff_used) ∧
      (∀ r, (monitorRun root_dir time_interval c steps).head? = some r →
        r.cutoff_used = c) ∧
      List.Chain' (fun a b => b.cutoff_used = a.cutoff_after)
        (monitorRun root_dir time_interval c steps) ∧
      (monitorRun root_dir time_interval c steps).map IterResult.cutoff_used
        = (c :: steps.map Prod.snd).take steps.length := by
  intro steps
  induction steps with
  | nil => intro c; simp [monitorRun]
  | cons s ss ih =>
    intro c
    obtain ⟨tree, now⟩ := s
    have hca : (monitorIter root_dir time_interval c tree now).cutoff_after = now := rfl
    obtain ⟨hl, hz, hh, hc, hm⟩ := ih now
    refine ⟨?_, ?_, ?_, ?_, ?_⟩
    · simp only [monitorRun, List.length_cons, hca, hl]
    · intro pr hpr
      simp only [monitorRun, hca, List.zip_cons_cons, List.mem_cons] at hpr
      rcases hpr with heq | htl
      · subst heq
        exact ⟨rfl, rfl⟩
      · exact hz pr htl
    · intro r hr
      simp only [monitorRun, List.head?_cons, Option.some_inj] at hr
      rw [← hr]
      rfl
    · simp only [monitorRun, hca]
      refine List.chain'_cons'.mpr ⟨?_, hc⟩
      intro b hb
      have := hh b (by simpa using hb)
      simp [this, hca]
    · simp only [monitorRun, hca, List.map_cons, hm, List.length_cons,
        List.take_succ_cons]
      rfl

/-- C3: the cutoff starts at loop-start time and is set to the clock
value captured at the end of every iteration in both branches; with a
monotone clock the cutoffs across a run are non-decreasing, and every
file an iteration reports is backed by an entry whose timestamp strictly
exceeds the cutoff in effect when that iteration began. -/
theorem c3_cutoff_invariant (root_dir : String) (time_interval : Int)
    (start : Int) (steps : List (Dir × Int))
    (hclock : List.Chain' (fun a b => a ≤ b) (start :: steps.map Prod.snd)) :
    (∀ pr ∈ (monitorRun root_dir time_interval start steps).zip steps,
        pr.1.cutoff_after = pr.2.2) ∧
    (∀ r, (monitorRun root_dir time_interval start steps).head? = some r →
        r.cutoff_used = start) ∧
    List.Chain' (fun a b => b.cutoff_used = a.cutoff_after)
      (monitorRun root_dir time_interval start steps) ∧
    List.Pairwise (fun a b => a ≤ b)
      ((monitorRun root_dir time_interval start steps).map IterResult.cutoff_used) ∧
    (∀ pr ∈ (monitorRun root_dir time_interval start steps).zip steps,
        ∀ p v, (p, v) ∈ pr.1.new_files →
          ∃ e, (p, e) ∈ rglobChildren root_dir pr.2.1 ∧ isFile e = true ∧
            statCtime e > pr.1.cutoff_used) := by
  obtain ⟨hl, hz, hh, hc, hm⟩ := monitorRun_spec root_dir time_interval steps start
  refine ⟨fun pr h => (hz pr h).1, hh, hc, ?_, ?_⟩
  · rw [hm]
    exact (List.chain'_iff_pairwise.mp hclock).sublist
      (List.take_sublist steps.length (start :: steps.map Prod.snd))
  · intro pr h p v hv
    rw [(hz pr h).2] at hv
    obtain ⟨e, hme, hf, hgt, _⟩ :=
      (mem_get_new_files root_dir pr.2.1 pr.1.cutoff_used p v).mp hv
    exact ⟨e, hme, hf, hgt⟩

/-- C3, witness: over a two-iteration run with clock values 0 ≤ 100 ≤
200, the cutoffs in effect at the start of each iteration are
non-decreasing. -/
theorem c3_cutoff_invariant_witness :
    List.Pairwise (fun a b => a ≤ b)
      ((monitorRun "/w" 15 0 [([], 100), ([], 200)]).map IterResult.cutoff_used) :=
  (c3_cutoff_invariant "/w" 15 0 [([], 100), ([], 200)] (by simp)).2.2.2.1

/-- C6: if iteration 1 runs with cutoff `c0` and captures clock value
`n1` at its end, then iteration 2 scans with cutoff exactly `n1`, and —
provided every path iteration 1 reported still carries, in iteration 2's
snapshot, a timestamp no later than `n1` (timestamps consistent with the
loop's clock, no skew) — iteration 2 reports none of the files iteration
1 reported. -/
theorem c6_no_repeat_across_iterations (root_dir : String) (time_interval : Int)
    (c0 n1 n2 : Int) (tree1 tree2 : Dir)
    (hcons : ∀ p e2, (p, e2) ∈ rglobChildren root_dir tree2 →
        (∃ v, (p, v) ∈ (monitorIter root_dir time_interval c0 tree1 n1).new_files) →
        isFile e2 = true → statCtime e2 ≤ n1) :
    (monitorIter root_dir time_interval
        (monitorIter root_dir time_interval c0 tree1 n1).cutoff_after tree2 n2).cutoff_used
      = n1 ∧
    ∀ p v v', (p, v) ∈ (monitorIter root_dir time_interval c0 tree1 n1).new_files →
      (p, v') ∉ (monitorIter root_dir time_interval
        (monitorIter root_dir time_interval c0 tree1 n1).cutoff_after tree2 n2).new_files := by
  have hca : (monitorIter root_dir time_interval c0 tree1 n1).cutoff_after = n1 := rfl
  refine ⟨rfl, ?_⟩
  intro p v v' h1 h2
  have h2' : (p, v') ∈ get_new_files root_dir tree2 n1 := by
    simpa [monitorIter, actingStep, hca] using h2
  obtain ⟨e2, hm2, hf2, hgt2, _⟩ :=
    (mem_get_new_files root_dir tree2 n1 p v').mp h2'
  exact absurd (hcons p e2 hm2 ⟨v, h1⟩ hf2) (by omega)

/-- C6, witness: a file reported in iteration 1 (created at 50 ≤ 100) is
absent from iteration 2's report over the unchanged snapshot. -/
theorem c6_no_repeat_across_iterations_witness :
    ("/w" ++ "/" ++ "a", "x") ∉
      (monitorIter "/w" 15
        (monitorIter "/w" 15 0 [("a", FSEntry.file 50)] 100).cutoff_after
        [("a", FSEntry.file 50)] 200).new_files := by
  refine (c6_no_repeat_across_iterations "/w" 15 0 100 200
    [("a", FSEntry.file 50)] [("a", FSEntry.file 50)] ?_).2
    ("/w" ++ "/" ++ "a") (timeCtime 50) "x"
    (by simp +decide [monitorIter, actingStep, get_new_files, rglobChildren,
          isFile, statCtime])
  intro p e2 hm _ hf
  simp only [rglobChildren] at hm
  rcases List.mem_cons.mp hm with heq | h0
  · obtain ⟨h1, h2⟩ := Prod.ext_iff.mp heq
    simp only at h2
    subst h2
    simp [statCtime]
  · simp at h0

/-- C8: the loop never returns.  Every step from the Sleeping phase
emits exactly the blocking `time_interval * 60` second delay and moves
to Scanning/Deciding; every Scanning/Deciding step returns
unconditionally to Sleeping; and a run of any length always produces a
successor — no branch of the body leaves the `while True`. -/
theorem c8_loop_never_returns (root_dir : String) (time_interval : Int) :
    (∀ tree now s, ∃ s1 evs,
        mstep root_dir time_interval tree now s = some (s1, evs) ∧
        (s.phase = Phase.sleeping →
          evs = [Event.sleep (time_interval * 60)] ∧ s1.phase = Phase.acting ∧
          s1.last_check_time = s.last_check_time) ∧
        (s.phase = Phase.acting → s1.phase = Phase.sleeping)) ∧
    (∀ envs s, (mrun root_dir time_interval envs s).isSome = true) := by
  constructor
  · intro tree now s
    obtain ⟨ph, lc⟩ := s
    cases ph
    · refine ⟨_, _, rfl, fun _ => ⟨rfl, rfl, rfl⟩, fun h => ?_⟩
      simp at h
    · refine ⟨_, _, rfl, fun h => ?_, fun _ => rfl⟩
      simp at h
  · intro envs
    induction envs with
    | nil => intro s; simp [mrun]
    | cons e rest ih =>
      intro s
      obtain ⟨tree, now⟩ := e
      obtain ⟨ph, lc⟩ := s
      cases ph
      · have hrec := ih ⟨Phase.acting, lc⟩
        simp only [mrun, mstep]
        cases hmr : mrun root_dir time_interval rest ⟨Phase.acting, lc⟩ with
        | none => rw [hmr] at hrec; simp at hrec
        | some out => simp
      · have hrec := ih
          ⟨Phase.sleeping, (actingStep root_dir time_interval tree now lc).cutoff_after⟩
        simp only [mrun, mstep]
        cases hmr : mrun root_dir time_interval rest
            ⟨Phase.sleeping, (actingStep root_dir time_interval tree now lc).cutoff_after⟩ with
        | none => rw [hmr] at hrec; simp at hrec
        | some out => simp

/-- C8, witness: a two-step run from the Sleeping state produces a
successor, and the first step is the blocking sleep. -/
theorem c8_loop_never_returns_witness :
    (∃ s1 evs, mstep "/w" 15 [] 100 { phase := Phase.sleeping, last_check_time := 0 }
      = some (s1, evs)) ∧
    (mrun "/w" 15 [([], 100), ([], 200)]
      { phase := Phase.sleeping, last_check_time := 0 }).isSome = true := by
  constructor
  · obtain ⟨s1, evs, h, _, _⟩ := (c8_loop_never_returns "/w" 15).1 [] 100
      { phase := Phase.sleeping, last_check_time := 0 }
    exact ⟨s1, evs, h⟩
  · exact (c8_loop_never_returns "/w" 15).2 [([], 100), ([], 200)]
      { phase := Phase.sleeping, last_check_time := 0 }

/-- C10: in an iteration whose scan result is empty the reassignment of
`last_check_time` happens only after the messenger's send returns.  If
the send raises, the escaping state still carries the iteration-start
cutoff; when the send succeeds (or is never reached because files were
found) the cutoff becomes `now`. -/
theorem c10_cutoff_unchanged_on_send_failure (root_dir : String) (time_interval : Int)
    (tree : Dir) (now last_check_time : Int) :
    (get_new_files root_dir tree last_check_time = [] →
        actingStepExc root_dir time_interval tree now last_check_time false =
          Except.error last_check_time) ∧
    (actingStepExc root_dir time_interval tree now last_check_time true =
        Except.ok (now, (actingStep root_dir time_interval tree now last_check_time).events)) ∧
    (get_new_files root_dir tree last_check_time ≠ [] →
        actingStepExc root_dir time_interval tree now last_check_time false =
          Except.ok (now, (actingStep root_dir time_interval tree now last_check_time).events)) := by
  refine ⟨?_, ?_, ?_⟩
  · intro h
    simp [actingStepExc, h]
  · by_cases h : get_new_files root_dir tree last_check_time = []
    · simp [actingStepExc, actingStep, h]
    · have hp : 0 < (get_new_files root_dir tree last_check_time).length :=
        List.length_pos.mpr h
      simp [actingStepExc, actingStep, h, hp]
  · intro h
    have hp : 0 < (get_new_files root_dir tree last_check_time).length :=
      List.length_pos.mpr h
    simp [actingStepExc, actingStep, h, hp]

/-- C10, witness: on an empty snapshot with a failing messenger the
escaping state carries the iteration-start cutoff 3. -/
theorem c10_cutoff_unchanged_on_send_failure_witness :
    actingStepExc "/w" 15 [] 100 3 false = Except.error 3 :=
  (c10_cutoff_unchanged_on_send_failure "/w" 15 [] 100 3).1
    (by simp [get_new_files, rglobChildren])

/-- C5: `read_config` recovers exactly the file-not-found case — it
synthesizes the default configuration, persists it at
`cwd/config.json`, reads it back and returns it.  A malformed file
raises `JSONDecodeError`, which is not caught and escapes; a well-formed
file is returned as parsed with the filesystem untouched. -/
theorem c5_only_filenotfound_recovered (fs : CFS) (cwd : String) (env : Env)
    (p : String) :
    (fs p = none →
        (read_config fs cwd env p).1 = Except.ok (defaultConfig cwd env) ∧
        (read_config fs cwd env p).2 (cwd ++ "/config.json") =
          some (CfgFile.valid (defaultConfig cwd env))) ∧
    (fs p = some CfgFile.malformed →
        (read_config fs cwd env p).1 = Except.error PyError.jsonDecodeError) ∧
    (∀ c, fs p = some (CfgFile.valid c) →
        (read_config fs cwd env p).1 = Except.ok c ∧
        (read_config fs cwd env p).2 = fs) := by
  refine ⟨?_, ?_, ?_⟩
  · intro h
    constructor <;> simp [read_config, h, create_default_config]
  · intro h
    simp [read_config, h]
  · intro c h
    constructor <;> simp [read_config, h]

/-- C5, witness: a missing file yields the default configuration; a
malformed file yields the escaping `JSONDecodeError`. -/
theorem c5_only_filenotfound_recovered_witness :
    ((read_config (fun _ => none) "/h" (fun _ => none) "config.json").1 =
        Except.ok (defaultConfig "/h" (fun _ => none))) ∧
    ((read_config (fun q => if q = "bad.json" then some CfgFile.malformed else none)
        "/h" (fun _ => none) "bad.json").1 = Except.error PyError.jsonDecodeError) := by
  constructor
  · exact ((c5_only_filenotfound_recovered (fun _ => none) "/h" (fun _ => none)
      "config.json").1 rfl).1
  · exact (c5_only_filenotfound_recovered
      (fun q => if q = "bad.json" then some CfgFile.malformed else none)
      "/h" (fun _ => none) "bad.json").2.1 (by simp)

/-- C7: the synthesized default configuration holds the current working
directory, interval 15, a log file path under the working directory, and
email fields from the environment with literal fallbacks; it is stored
at `cwd/config.json`; its serialized keys keep the source's insertion
order; the serializer indents each field by four spaces (shown on a
concrete default, whose full rendered text is fixed); and a subsequent
load reads back exactly the written record. -/
theorem c7_default_config_contents (fs : CFS) (cwd : String) (env : Env) :
    (create_default_config fs cwd env).1 = cwd ++ "/config.json" ∧
    (create_default_config fs cwd env).2 (cwd ++ "/config.json") =
      some (CfgFile.valid (defaultConfig cwd env)) ∧
    (defaultConfig cwd env).directory_of_interest = cwd ∧
    (defaultConfig cwd env).check_time_interval = 15 ∧
    (defaultConfig cwd env).log_file_location = cwd ++ "/monitor.txt" ∧
    (defaultConfig cwd env).email_receiver =
      (env "LOGGER_EMAIL_RECEIVER").getD "reciever@gmail.com" ∧
    (defaultConfig cwd env).email_sender =
      (env "LOGGER_EMAIL_SENDER").getD "sender@gmail.com" ∧
    (defaultConfig cwd env).email_password =
      (env "LOGGER_EMAIL_PASSWORD").getD "default_password" ∧
    (configItems (defaultConfig cwd env)).map Prod.fst =
      ["directory_of_interest", "check_time_interval", "log_file_location",
       "email_receiver", "email_sender", "email_password"] ∧
    dumpConfig (defaultConfig "/w" (fun _ => none)) =
      "\x7b\n    \"directory_of_interest\": \"/w\",\n    \"check_time_interval\": 15,\n    \"log_file_location\": \"/w/monitor.txt\",\n    \"email_receiver\": \"reciever@gmail.com\",\n    \"email_sender\": \"sender@gmail.com\",\n    \"email_password\": \"default_password\"\n\x7d" ∧
    (read_config (create_default_config fs cwd env).2 cwd env
        (create_default_config fs cwd env).1).1 =
      Except.ok (defaultConfig cwd env) := by
  refine ⟨rfl, ?_, rfl, rfl, rfl, rfl, rfl, rfl, by simp [configItems], by decide, ?_⟩
  · simp [create_default_config]
  · simp [read_config, create_default_config]

/-- C7, witness: reading back immediately after creating the default
over an empty filesystem returns exactly the default record. -/
theorem c7_default_config_contents_witness :
    (read_config (create_default_config (fun _ => none) "/h" (fun _ => none)).2
        "/h" (fun _ => none)
        (create_default_config (fun _ => none) "/h" (fun _ => none)).1).1 =
      Except.ok (defaultConfig "/h" (fun _ => none)) :=
  (c7_default_config_contents (fun _ => none) "/h" (fun _ => none)).2.2.2.2.2.2.2.2.2.2

/-- C9: when opening `p` raises file-not-found, the default is written
to `config.json` in the current working directory — not to `p` —
overwriting whatever was there; `p` itself is never created; every other
path is untouched; and the value returned is the default read back from
`cwd/config.json`. -/
theorem c9_default_written_to_cwd (fs : CFS) (cwd : String) (env : Env) (p : String)
    (hne : p ≠ cwd ++ "/config.json") (hmiss : fs p = none) :
    (read_config fs cwd env p).1 = Except.ok (defaultConfig cwd env) ∧
    (read_config fs cwd env p).2 p = none ∧
    (read_config fs cwd env p).2 (cwd ++ "/config.json") =
      some (CfgFile.valid (defaultConfig cwd env)) ∧
    (∀ q, q ≠ cwd ++ "/config.json" → (read_config fs cwd env p).2 q = fs q) := by
  refine ⟨?_, ?_, ?_, ?_⟩
  · simp [read_config, hmiss, create_default_config]
  · simp [read_config, hmiss, create_default_config, hne]
  · simp [read_config, hmiss, create_default_config]
  · intro q hq
    simp [read_config, hmiss, create_default_config, hq]

/-- C9, witness: asking for `other.json` on a filesystem that already
holds a malformed `/h/config.json` recovers with the default, leaves
`other.json` absent and overwrites `/h/config.json`. -/
theorem c9_default_written_to_cwd_witness :
    (read_config (fun q => if q = "/h" ++ "/config.json" then some CfgFile.malformed else none)
        "/h" (fun _ => none) "other.json").1 =
      Except.ok (defaultConfig "/h" (fun _ => none)) ∧
    (read_config (fun q => if q = "/h" ++ "/config.json" then some CfgFile.malformed else none)
        "/h" (fun _ => none) "other.json").2 "other.json" = none ∧
    (read_config (fun q => if q = "/h" ++ "/config.json" then some CfgFile.malformed else none)
        "/h" (fun _ => none) "other.json").2 ("/h" ++ "/config.json") =
      some (CfgFile.valid (defaultConfig "/h" (fun _ => none))) := by
  have h := c9_default_written_to_cwd
    (fun q => if q = "/h" ++ "/config.json" then some CfgFile.malformed else none)
    "/h" (fun _ => none) "other.json" (by simp) (by simp)
  exact ⟨h.1, h.2.1, h.2.2.1⟩

end FileSentinel
